import Mathlib

/-!
# Block-granular file statistics (`lib/src/io/file_stats.cc`)

A shallow embedding of `as_nibble`, `FileStatisticsCollector::Resize`,
`FileStatisticsCollector::ExportStatistics` and the four functions of
`FileStatisticsRegistry`.

Conventions of the embedding:

* `uint64_t` and `size_t` values are natural numbers below `2 ^ 64`; every
  operation that can leave that range is reduced `% 2 ^ 64` (`WORD`).
* `MIN_RANGE_SHIFT` and `MAX_RANGE_COUNT` are declared in `file_stats.h`, which
  is not part of the sources at hand; they are the two fields of `Config` and
  every statement quantifies over them or fixes them explicitly.
* The members `block_count_` and `block_shift_` hold the values assigned to
  them unchanged, and `new BlockStatistics[block_count]` succeeds.
* `assert` is compiled out by `NDEBUG` and aborts otherwise: `Resize` is the
  state change of the function, `Resize.assertion` the asserted condition and
  `Resize.checked` the function of a build that checks it.
* The mutexes are not modelled: every operation runs to completion under its
  lock, so it is a function from the state before to the state after.
-/

namespace duckdb.web.io

/-- The number of values of a 64-bit unsigned integer (`uint64_t`, `size_t`). -/
def WORD : Nat := 2 ^ 64

/-! ## `as_nibble` (lines 17-27) -/

/-- The `for` loop of `as_nibble`: `value` is the loop variable, `hitsGEQ` the
running result.  The loop stops when `value` reaches 16 or at the first
threshold `(1 << value) - 1` that `hits` does not reach (`break`). -/
def as_nibble.loop (hits : Nat) (value hitsGEQ : Nat) : Nat :=
  if value < 16 then
    if hits ≥ (1 <<< value) - 1 then as_nibble.loop hits (value + 1) value
    else hitsGEQ
  else hitsGEQ
termination_by 16 - value
decreasing_by omega

/-- The function `as_nibble`: `hitsGEQ` starts at 0, the loop starts at
`value = 0`, and the result is returned as a `uint16_t`. -/
def as_nibble (hits : Nat) : Nat :=
  as_nibble.loop hits 0 0 % 2 ^ 16

/-! ## The collector state -/

/-- The per-block counters read by `ExportStatistics` (the struct itself is
declared in `file_stats.h`). -/
structure BlockStatistics where
  file_write : Nat
  file_read_cold : Nat
  file_read_ahead : Nat
  file_read_cached : Nat
  page_access : Nat
  page_load : Nat
deriving DecidableEq, Repr

/-- A block as `std::memset(..., 0, ...)` leaves it. -/
def BlockStatistics.zero : BlockStatistics :=
  ⟨0, 0, 0, 0, 0, 0⟩

/-- The two constants of `file_stats.h` that `Resize` uses. -/
structure Config where
  MIN_RANGE_SHIFT : Nat
  MAX_RANGE_COUNT : Nat
deriving DecidableEq, Repr

/-- The members of `FileStatisticsCollector` that `file_stats.cc` reads or
writes, and the `active` flag of the spec. -/
structure FileStatisticsCollector where
  block_stats_ : List BlockStatistics
  block_shift_ : Nat
  block_count_ : Nat
  bytes_file_read_cold_ : Nat
  bytes_file_read_ahead_ : Nat
  bytes_file_read_cached_ : Nat
  bytes_file_write_ : Nat
  bytes_page_access_ : Nat
  bytes_page_load_ : Nat
  active_ : Bool
deriving DecidableEq, Repr

/-! ## `FileStatisticsCollector::Resize` (lines 30-43) -/

/-- The coarsening loop of line 34:
`for (; block_count > MAX_RANGE_COUNT; block_count >>= 1, ++block_shift);`.
It returns the final `(block_count, block_shift)`. -/
def Resize.coarsen (MAX_RANGE_COUNT : Nat) (block_count block_shift : Nat) : Nat × Nat :=
  if block_count > MAX_RANGE_COUNT then
    Resize.coarsen MAX_RANGE_COUNT (block_count >>> 1) (block_shift + 1)
  else (block_count, block_shift)
termination_by block_count
decreasing_by
  have h : 0 < block_count := by omega
  rw [Nat.shiftRight_eq_div_pow]
  exact Nat.div_lt_self h (by norm_num)

/-- Lines 32-36 of `Resize`: the local `(block_count, block_shift)` at the
assertion of line 37. -/
def Resize.config (cfg : Config) (n : Nat) : Nat × Nat :=
  let block_count := max ((n >>> cfg.MIN_RANGE_SHIFT) % WORD) 1
  let block_shift := cfg.MIN_RANGE_SHIFT
  let r := Resize.coarsen cfg.MAX_RANGE_COUNT block_count block_shift
  let block_count := r.1
  let block_shift := r.2
  let block_count :=
    if (block_count <<< block_shift) % WORD < n then (block_count + 1) % WORD else block_count
  (block_count, block_shift)

/-- The condition of `assert((block_count << block_shift) >= n)` on line 37,
with the 64-bit left shift of the source. -/
def Resize.assertion (cfg : Config) (n : Nat) : Bool :=
  decide (((Resize.config cfg n).1 <<< (Resize.config cfg n).2) % WORD ≥ n)

/-- The state change of `Resize(n)` (lines 38-42), the assertion aside: on the
configuration the collector already has it returns at line 38, otherwise it
installs a fresh zeroed array of `block_count` blocks. -/
def Resize (cfg : Config) (self : FileStatisticsCollector) (n : Nat) : FileStatisticsCollector :=
  let block_count := (Resize.config cfg n).1
  let block_shift := (Resize.config cfg n).2
  if block_count = self.block_count_ ∧ block_shift = self.block_shift_ then self
  else
    { self with
      block_stats_ := List.replicate block_count BlockStatistics.zero
      block_shift_ := block_shift
      block_count_ := block_count }

/-- The function `Resize` in a build where `assert` is active: a failed
assertion aborts before the state is touched. -/
def Resize.checked (cfg : Config) (self : FileStatisticsCollector) (n : Nat) :
    Option FileStatisticsCollector :=
  if Resize.assertion cfg n then some (Resize cfg self n) else none

/-! ## `FileStatisticsCollector::ExportStatistics` (lines 46-66) -/

/-- An `arrow::Status` other than OK, identified by its code. -/
structure Status where
  code : Nat
deriving DecidableEq, Repr

/-- The type `arrow::Result<T>`: a value or a failure status. -/
abbrev ArrowResult (α : Type) := Except Status α

/-- How a call ends: control returns to the caller with a value, or the
process is aborted inside the call (`std::abort`). -/
inductive Outcome (α : Type) where
  | returned (value : α)
  | aborted
deriving DecidableEq, Repr

/-- The external allocator `arrow::AllocateBuffer`: for a requested size it
yields a buffer of that size or a failure status. -/
abbrev Allocator := Nat → ArrowResult Unit

/-- One exported block record `o`: the three bytes `o[0]`, `o[1]`, `o[2]`. -/
structure ExportedBlockStats where
  byte0 : Nat
  byte1 : Nat
  byte2 : Nat
deriving DecidableEq, Repr

/-- The struct `ExportFileStatistics` that line 50 lays over the buffer: the
six aggregates, `block_size`, and the block records that follow. -/
structure ExportFileStatistics where
  bytes_file_cold : Nat
  bytes_file_ahead : Nat
  bytes_file_cached : Nat
  bytes_file_write : Nat
  bytes_page_access : Nat
  bytes_page_load : Nat
  block_size : Nat
  block_stats : List ExportedBlockStats
deriving DecidableEq, Repr

/-- An `arrow::Buffer` as `ExportStatistics` leaves it: the size it was
allocated with and the struct written into it. -/
structure Buffer where
  size : Nat
  contents : ExportFileStatistics
deriving DecidableEq, Repr

/-- Modelled from the spec: `sizeof(ExportFileStatistics)`, declared in
`file_stats.h`; the spec's layout puts six 64-bit aggregates and a 32-bit
`block_size` in front of the records, 52 bytes. -/
def sizeof_ExportFileStatistics : Nat := 52

/-- Modelled from the spec: `sizeof(ExportedBlockStats)`, declared in
`file_stats.h`; the spec's block record is 3 bytes. -/
def sizeof_ExportedBlockStats : Nat := 3

/-- Lines 61-63: the record written for block `b`.  Each right-hand side is
an `int` stored into a byte, hence `% 256`. -/
def ExportStatistics.record (b : BlockStatistics) : ExportedBlockStats :=
  { byte0 := (as_nibble b.file_write ||| (as_nibble b.file_read_cold <<< 4)) % 256
    byte1 := (as_nibble b.file_read_ahead ||| (as_nibble b.file_read_cached <<< 4)) % 256
    byte2 := (as_nibble b.page_access ||| (as_nibble b.page_load <<< 4)) % 256 }

/-- Lines 51-64: what `ExportStatistics` writes through `out`.  The loop runs
over `i < block_count_` and reads `block_stats_[i]`; the source defines that
read only inside the array, and the model reads a zeroed block outside it.
On line 57 `1 << block_shift_` is a shift of the `int` 1, a 32-bit result
whatever the width of `block_shift_`, and the spec gives `block_size` 32 bits,
hence `% 2 ^ 32`. -/
def ExportStatistics.contents (self : FileStatisticsCollector) : ExportFileStatistics :=
  { bytes_file_cold := self.bytes_file_read_cold_
    bytes_file_ahead := self.bytes_file_read_ahead_
    bytes_file_cached := self.bytes_file_read_cached_
    bytes_file_write := self.bytes_file_write_
    bytes_page_access := self.bytes_page_access_
    bytes_page_load := self.bytes_page_load_
    block_size := (1 <<< self.block_shift_) % 2 ^ 32
    block_stats := (List.range self.block_count_).map fun i =>
      ExportStatistics.record (self.block_stats_.getD i BlockStatistics.zero) }

/-- The size passed to `arrow::AllocateBuffer` on lines 47-48, in `size_t`
arithmetic. -/
def ExportStatistics.size (self : FileStatisticsCollector) : Nat :=
  (sizeof_ExportFileStatistics + self.block_count_ * sizeof_ExportedBlockStats) % WORD

/-- The function `FileStatisticsCollector::ExportStatistics`.  Line 49 calls
`buffer.ValueOrDie()`, which in Arrow aborts the process when the result holds
a failure status; otherwise the filled buffer is returned as the OK result. -/
def FileStatisticsCollector.ExportStatistics (AllocateBuffer : Allocator)
    (self : FileStatisticsCollector) : Outcome (ArrowResult (Option Buffer)) :=
  match AllocateBuffer (ExportStatistics.size self) with
  | .error _ => .aborted
  | .ok _ =>
    .returned (.ok (some
      { size := ExportStatistics.size self, contents := ExportStatistics.contents self }))

/-! ## `FileStatisticsRegistry` (lines 69-106) -/

/-- The registry: `collectors_` maps a file name to a shared pointer, here the
address of the collector, and `objects` gives the collector stored at each
address. -/
structure FileStatisticsRegistry where
  collectors_ : List (String × Nat)
  objects : Nat → FileStatisticsCollector

/-- The lookup `collectors_.find(std::string{file_name})`: the pointer stored
under the name, if there is one. -/
def FileStatisticsRegistry.find (self : FileStatisticsRegistry) (file_name : String) :
    Option Nat :=
  self.collectors_.lookup file_name

/-- The function `FileStatisticsRegistry::TracksFile` (lines 69-73). -/
def FileStatisticsRegistry.TracksFile (self : FileStatisticsRegistry) (file_name : String) :
    Bool :=
  (self.find file_name).isSome

/-- The function `FileStatisticsRegistry::FindCollector` (lines 76-80): the
shared pointer, or `none` for `nullptr`. -/
def FileStatisticsRegistry.FindCollector (self : FileStatisticsRegistry) (file_name : String) :
    Option Nat :=
  self.find file_name

/-- The function `FileStatisticsRegistry::ExportStatistics` (lines 99-106):
the collector's own export when the name is registered, otherwise the OK
result holding `nullptr`. -/
def FileStatisticsRegistry.ExportStatistics (AllocateBuffer : Allocator)
    (self : FileStatisticsRegistry) (path : String) : Outcome (ArrowResult (Option Buffer)) :=
  match self.find path with
  | some p => (self.objects p).ExportStatistics AllocateBuffer
  | none => .returned (.ok none)

/-- Modelled from the spec: `FileStatisticsCollector::Activate`, declared in
`file_stats.h`; on an existing collector `EnableCollector` "flips its active
flag to `enable`", and nothing else of the collector is said to change. -/
def FileStatisticsCollector.Activate (self : FileStatisticsCollector) (enable : Bool) :
    FileStatisticsCollector :=
  { self with active_ := enable }

/-- The address `std::make_shared` returns on line 91.  A new object is
distinct from every live one, and the registered collectors are live; the
model takes the first address above all registered ones. -/
def FileStatisticsRegistry.fresh (self : FileStatisticsRegistry) : Nat :=
  (self.collectors_.map Prod.snd).foldr max 0 + 1

/-- The call `collectors_.insert({name, collector})` of line 92 on a map with
unique keys: the pair is added unless the key is present already. -/
def FileStatisticsRegistry.insert (collectors : List (String × Nat)) (name : String)
    (collector : Nat) : List (String × Nat) :=
  if (collectors.lookup name).isSome then collectors else (name, collector) :: collectors

/-- The function `FileStatisticsRegistry::EnableCollector` (lines 83-96): the
returned shared pointer (`none` for `nullptr`) and the registry afterwards.
The constructor `FileStatisticsCollector()` is declared in `file_stats.h`;
`init` is the state it gives a new collector. -/
def FileStatisticsRegistry.EnableCollector (init : FileStatisticsCollector)
    (self : FileStatisticsRegistry) (file_name : String) (enable : Bool) :
    Option Nat × FileStatisticsRegistry :=
  match self.find file_name with
  | some p =>
    (some p,
      { self with objects := Function.update self.objects p ((self.objects p).Activate enable) })
  | none =>
    if enable then
      (some self.fresh,
        { collectors_ := FileStatisticsRegistry.insert self.collectors_ file_name self.fresh
          objects := Function.update self.objects self.fresh init })
    else (none, self)

/-- A call of one of the four functions of the registry. -/
inductive FileStatisticsRegistry.Call where
  | TracksFile (file_name : String)
  | FindCollector (file_name : String)
  | EnableCollector (file_name : String) (enable : Bool)
  | ExportStatistics (path : String)
deriving DecidableEq, Repr

/-- The registry after a call.  `TracksFile`, `FindCollector` and
`ExportStatistics` (with the `const` export of the collector it delegates to)
only read; `EnableCollector` is the one function that writes. -/
def FileStatisticsRegistry.after (init : FileStatisticsCollector)
    (self : FileStatisticsRegistry) : FileStatisticsRegistry.Call → FileStatisticsRegistry
  | .TracksFile _ => self
  | .FindCollector _ => self
  | .EnableCollector file_name enable => (self.EnableCollector init file_name enable).2
  | .ExportStatistics _ => self

/-- The registry after a sequence of calls, first call first. -/
def FileStatisticsRegistry.afterAll (init : FileStatisticsCollector)
    (self : FileStatisticsRegistry) (calls : List FileStatisticsRegistry.Call) :
    FileStatisticsRegistry :=
  calls.foldl (FileStatisticsRegistry.after init) self

/-- The states a registry can be in: `collectors_` is a map, so no name occurs
twice, and every entry was made by its own `std::make_shared`, so no address
occurs twice. -/
def FileStatisticsRegistry.WellFormed (self : FileStatisticsRegistry) : Prop :=
  (self.collectors_.map Prod.fst).Nodup ∧ (self.collectors_.map Prod.snd).Nodup

/-- The number of entries `collectors_` holds for a name. -/
def FileStatisticsRegistry.entries (self : FileStatisticsRegistry) (file_name : String) : Nat :=
  (self.collectors_.map Prod.fst).count file_name

/-- The collector after a sequence of `Resize` calls, first call first. -/
def Resize.all (cfg : Config) (self : FileStatisticsCollector) (sizes : List Nat) :
    FileStatisticsCollector :=
  sizes.foldl (Resize cfg) self

/-! ## Concrete inputs used below -/

/-- The constants of the spec's scenario: `MIN_RANGE_SHIFT = 6`,
`MAX_RANGE_COUNT = 64`. -/
def scenarioConfig : Config := ⟨6, 64⟩

/-- A collector as its constructor leaves it: no blocks, all counters zero,
not active. -/
def emptyCollector : FileStatisticsCollector :=
  { block_stats_ := [], block_shift_ := 0, block_count_ := 0,
    bytes_file_read_cold_ := 0, bytes_file_read_ahead_ := 0, bytes_file_read_cached_ := 0,
    bytes_file_write_ := 0, bytes_page_access_ := 0, bytes_page_load_ := 0, active_ := false }

/-- The collector of the spec's scenario: resized to 1000 bytes under
`scenarioConfig` (16 blocks of 64 bytes), then `file_write` of block 0 raised
to 5. -/
def scenarioCollector : FileStatisticsCollector :=
  { emptyCollector with
    block_stats_ := ⟨5, 0, 0, 0, 0, 0⟩ :: List.replicate 15 BlockStatistics.zero
    block_shift_ := 6
    block_count_ := 16 }

/-- An allocator that always succeeds. -/
def okAllocator : Allocator := fun _ => .ok ()

/-- An allocator that is out of memory for every size. -/
def failingAllocator : Allocator := fun _ => .error ⟨1⟩

/-- A registry that tracks the scenario collector under one name. -/
def scenarioRegistry : FileStatisticsRegistry :=
  { collectors_ := [("data.parquet", 0)], objects := fun _ => scenarioCollector }

/-- A registry as its constructor leaves it: no entries. -/
def emptyRegistry : FileStatisticsRegistry :=
  { collectors_ := [], objects := fun _ => emptyCollector }

/-- A registry that tracks two files, each with its own collector. -/
def twoFileRegistry : FileStatisticsRegistry :=
  { collectors_ := [("b.csv", 2), ("a.csv", 1)], objects := fun _ => emptyCollector }

/-- A collector resized to `2 ^ 38` bytes under `scenarioConfig`: 64 blocks of
`2 ^ 32` bytes. -/
def largeCollector : FileStatisticsCollector :=
  { emptyCollector with
    block_stats_ := List.replicate 64 BlockStatistics.zero
    block_shift_ := 32
    block_count_ := 64 }

/-! ## Arithmetic of `as_nibble` -/

/-- Invariant of the loop of `as_nibble`: entered at `value` with `hitsGEQ`
the last level passed (or at the start), it returns a level `r ≤ 15` whose
threshold `hits` reaches, and `hits` is below the next threshold unless
`r = 15`. -/
theorem as_nibble.loop_spec (hits value hitsGEQ : Nat) (hv : value ≤ 16)
    (hinv : (value = 0 ∧ hitsGEQ = 0) ∨ (hitsGEQ + 1 = value ∧ 2 ^ hitsGEQ - 1 ≤ hits)) :
    as_nibble.loop hits value hitsGEQ ≤ 15 ∧
      2 ^ as_nibble.loop hits value hitsGEQ - 1 ≤ hits ∧
      (as_nibble.loop hits value hitsGEQ = 15 ∨
        hits < 2 ^ (as_nibble.loop hits value hitsGEQ + 1) - 1) := by
  induction value, hitsGEQ using as_nibble.loop.induct hits with
  | case1 value g hlt hge ih =>
    rw [as_nibble.loop, if_pos hlt, if_pos hge]
    apply ih (by omega)
    right
    refine ⟨rfl, ?_⟩
    rw [Nat.shiftLeft_eq, one_mul] at hge
    exact hge
  | case2 value g hlt hge =>
    rw [as_nibble.loop, if_pos hlt, if_neg hge]
    rw [Nat.shiftLeft_eq, one_mul] at hge
    rcases hinv with ⟨h0, -⟩ | ⟨h1, h2⟩
    · subst h0
      simp at hge
    · subst h1
      exact ⟨by omega, h2, Or.inr (by omega)⟩
  | case3 value g hlt =>
    rw [as_nibble.loop, if_neg hlt]
    rcases hinv with ⟨h0, -⟩ | ⟨h1, h2⟩
    · omega
    · have : g = 15 := by omega
      subst this
      exact ⟨le_refl _, h2, Or.inl rfl⟩

/-- What `as_nibble` returns: a level `r ≤ 15` with `2 ^ r - 1 ≤ hits`, and
`hits < 2 ^ (r + 1) - 1` unless `r = 15`. -/
theorem as_nibble_bounds (hits : Nat) :
    as_nibble hits ≤ 15 ∧ 2 ^ as_nibble hits - 1 ≤ hits ∧
      (as_nibble hits = 15 ∨ hits < 2 ^ (as_nibble hits + 1) - 1) := by
  have h := as_nibble.loop_spec hits 0 0 (by omega) (Or.inl ⟨rfl, rfl⟩)
  have hmod : as_nibble hits = as_nibble.loop hits 0 0 := by
    unfold as_nibble
    exact Nat.mod_eq_of_lt (by omega)
  rw [hmod]
  exact h

/-! ## Arithmetic of the coarsening loop -/

/-- The loop of line 34 performs some number `k` of halvings: it returns
`(block_count >> k, block_shift + k)`, the returned count is within the budget
and every earlier count was above it. -/
theorem Resize.coarsen_eq (M bc s : Nat) :
    ∃ k, Resize.coarsen M bc s = (bc >>> k, s + k) ∧ bc >>> k ≤ M ∧
      ∀ j, j < k → M < bc >>> j := by
  induction bc, s using Resize.coarsen.induct M with
  | case1 bc s h ih =>
    obtain ⟨k, hk, hle, hlt⟩ := ih
    refine ⟨k + 1, ?_, ?_, ?_⟩
    · rw [Resize.coarsen, if_pos h, hk]
      simp only [Prod.mk.injEq]
      constructor
      · rw [Nat.add_comm k 1, Nat.shiftRight_add]
      · omega
    · rw [Nat.add_comm k 1, Nat.shiftRight_add]
      exact hle
    · intro j hj
      cases j with
      | zero => simpa using h
      | succ j =>
        rw [Nat.add_comm j 1, Nat.shiftRight_add]
        exact hlt j (by omega)
  | case2 bc s h =>
    refine ⟨0, ?_, ?_, ?_⟩
    · rw [Resize.coarsen, if_neg h]
      simp
    · simpa using h
    · intro j hj
      omega

/-- With a budget of at least one block the loop never reaches zero blocks. -/
theorem Resize.coarsen_pos (M bc s : Nat) (hM : 1 ≤ M) (hbc : 1 ≤ bc) :
    1 ≤ (Resize.coarsen M bc s).1 := by
  induction bc, s using Resize.coarsen.induct M with
  | case1 bc s h ih =>
    rw [Resize.coarsen, if_pos h]
    apply ih
    rw [Nat.shiftRight_eq_div_pow]
    have : 2 ≤ bc := by omega
    omega
  | case2 bc s h =>
    rw [Resize.coarsen, if_neg h]
    exact hbc

/-- The configuration computed by lines 32-36, in arithmetic: for constants
with `MAX_RANGE_COUNT ≥ 1` and `MIN_RANGE_SHIFT < 64` and a 64-bit `n`, the
shift stays below 64 and the count is the rounded-up quotient `n / 2 ^ shift`,
at least one. -/
theorem Resize.config_spec (cfg : Config) (n : Nat) (hM : 1 ≤ cfg.MAX_RANGE_COUNT)
    (hm : cfg.MIN_RANGE_SHIFT < 64) (hn : n < WORD) :
    cfg.MIN_RANGE_SHIFT ≤ (Resize.config cfg n).2 ∧ (Resize.config cfg n).2 < 64 ∧
      1 ≤ (Resize.config cfg n).1 ∧
      n ≤ (Resize.config cfg n).1 * 2 ^ (Resize.config cfg n).2 ∧
      ((Resize.config cfg n).1 = 1 ∨
        ((Resize.config cfg n).1 - 1) * 2 ^ (Resize.config cfg n).2 < n) := by
  obtain ⟨m, M⟩ := cfg
  simp only at hM hm
  have hW : WORD = 2 ^ 64 := rfl
  have hsh : (n >>> m) % WORD = n >>> m := by
    apply Nat.mod_eq_of_lt
    rw [Nat.shiftRight_eq_div_pow]
    exact lt_of_le_of_lt (Nat.div_le_self _ _) hn
  obtain ⟨k, hk, hle, hlt⟩ := Resize.coarsen_eq M (max (n >>> m) 1) m
  have hpos := Resize.coarsen_pos M (max (n >>> m) 1) m hM (le_max_right _ _)
  simp only [Resize.config, hsh, hk] at hpos ⊢
  by_cases hsmall : n < 2 ^ m
  · have h0 : n >>> m = 0 := by
      rw [Nat.shiftRight_eq_div_pow]
      exact Nat.div_eq_of_lt hsmall
    have hk0 : k = 0 := by
      by_contra hne
      have := hlt 0 (by omega)
      simp [h0] at this
      omega
    subst hk0
    have h2m : 2 ^ m < 2 ^ 64 := Nat.pow_lt_pow_right (by norm_num) hm
    have h1 : (1 <<< m) % WORD = 2 ^ m := by
      rw [Nat.shiftLeft_eq, one_mul, hW]
      exact Nat.mod_eq_of_lt h2m
    simp only [h0, Nat.zero_max, Nat.shiftRight_zero, Nat.add_zero, h1]
    rw [if_neg (by omega)]
    refine ⟨le_refl _, hm, le_refl _, ?_, Or.inl rfl⟩
    omega
  · have hge : 2 ^ m ≤ n := by omega
    have h1 : 1 ≤ n >>> m := by
      rw [Nat.shiftRight_eq_div_pow]
      exact (Nat.one_le_div_iff (by positivity)).2 hge
    have hmax : max (n >>> m) 1 = n >>> m := max_eq_left h1
    rw [hmax] at hpos ⊢
    rw [← Nat.shiftRight_add] at hpos ⊢
    rw [Nat.shiftRight_eq_div_pow] at hpos ⊢
    set s := m + k with hs
    have hp : 0 < 2 ^ s := by positivity
    have hsn : 2 ^ s ≤ n := by
      by_contra hlt2
      have : n / 2 ^ s = 0 := Nat.div_eq_of_lt (by omega)
      omega
    have hs64 : s < 64 := by
      by_contra hge64
      have : 2 ^ 64 ≤ 2 ^ s := Nat.pow_le_pow_right (by norm_num) (by omega)
      omega
    have hmul : n / 2 ^ s * 2 ^ s ≤ n := Nat.div_mul_le_self n (2 ^ s)
    have hsl : ((n / 2 ^ s) <<< s) % WORD = n / 2 ^ s * 2 ^ s := by
      rw [Nat.shiftLeft_eq]
      exact Nat.mod_eq_of_lt (lt_of_le_of_lt hmul hn)
    have hlt' : n < (n / 2 ^ s + 1) * 2 ^ s := by
      have := Nat.lt_div_mul_add hp (a := n)
      rw [Nat.add_mul, one_mul]
      exact this
    rw [hsl]
    by_cases hc : n / 2 ^ s * 2 ^ s < n
    · have hb : n / 2 ^ s < n := by
        have : n / 2 ^ s ≤ n / 2 ^ s * 2 ^ s := Nat.le_mul_of_pos_right _ hp
        omega
      have hmod : (n / 2 ^ s + 1) % WORD = n / 2 ^ s + 1 := Nat.mod_eq_of_lt (by omega)
      rw [if_pos hc, hmod]
      refine ⟨by omega, hs64, by omega, le_of_lt hlt', Or.inr ?_⟩
      simpa using hc
    · rw [if_neg hc]
      have heq : n / 2 ^ s * 2 ^ s = n := by omega
      refine ⟨by omega, hs64, hpos, by omega, Or.inr ?_⟩
      have : (n / 2 ^ s - 1) * 2 ^ s < n / 2 ^ s * 2 ^ s :=
        Nat.mul_lt_mul_of_lt_of_le (by omega) (le_refl _) hp
      omega

/-- Lines 32-36 once the result `(b, s)` of the loop is known. -/
theorem Resize.config_of_coarsen (cfg : Config) (n b s : Nat)
    (h : Resize.coarsen cfg.MAX_RANGE_COUNT (max ((n >>> cfg.MIN_RANGE_SHIFT) % WORD) 1)
      cfg.MIN_RANGE_SHIFT = (b, s)) :
    Resize.config cfg n = (if (b <<< s) % WORD < n then (b + 1) % WORD else b, s) := by
  unfold Resize.config
  simp only [h]

/-- The shift computed by `Resize` is never below `MIN_RANGE_SHIFT`. -/
theorem Resize.config_shift_ge (cfg : Config) (n : Nat) :
    cfg.MIN_RANGE_SHIFT ≤ (Resize.config cfg n).2 := by
  obtain ⟨k, hk, -, -⟩ := Resize.coarsen_eq cfg.MAX_RANGE_COUNT
    (max ((n >>> cfg.MIN_RANGE_SHIFT) % WORD) 1) cfg.MIN_RANGE_SHIFT
  rw [Resize.config_of_coarsen cfg n _ _ hk]
  exact Nat.le_add_right _ _

/-- Line 38: on the configuration the collector already has, `Resize` returns
without touching the state. -/
theorem Resize_same (cfg : Config) (self : FileStatisticsCollector) (n : Nat)
    (h : (Resize.config cfg n).1 = self.block_count_ ∧
      (Resize.config cfg n).2 = self.block_shift_) :
    Resize cfg self n = self := by
  show (if _ then _ else _) = _
  rw [if_pos h]

/-- Lines 39-42: on any other configuration `Resize` installs a zeroed array
of the new size and the new configuration, and nothing else changes. -/
theorem Resize_fresh (cfg : Config) (self : FileStatisticsCollector) (n : Nat)
    (h : ¬ ((Resize.config cfg n).1 = self.block_count_ ∧
      (Resize.config cfg n).2 = self.block_shift_)) :
    Resize cfg self n =
      { self with
        block_stats_ := List.replicate (Resize.config cfg n).1 BlockStatistics.zero
        block_shift_ := (Resize.config cfg n).2
        block_count_ := (Resize.config cfg n).1 } := by
  show (if _ then _ else _) = _
  rw [if_neg h]

/-- After `Resize(n)` the collector holds the count computed for `n`. -/
theorem Resize_block_count (cfg : Config) (self : FileStatisticsCollector) (n : Nat) :
    (Resize cfg self n).block_count_ = (Resize.config cfg n).1 := by
  by_cases h : (Resize.config cfg n).1 = self.block_count_ ∧
      (Resize.config cfg n).2 = self.block_shift_
  · rw [Resize_same cfg self n h]
    exact h.1.symm
  · rw [Resize_fresh cfg self n h]

/-- After `Resize(n)` the collector holds the shift computed for `n`. -/
theorem Resize_block_shift (cfg : Config) (self : FileStatisticsCollector) (n : Nat) :
    (Resize cfg self n).block_shift_ = (Resize.config cfg n).2 := by
  by_cases h : (Resize.config cfg n).1 = self.block_count_ ∧
      (Resize.config cfg n).2 = self.block_shift_
  · rw [Resize_same cfg self n h]
    exact h.2.symm
  · rw [Resize_fresh cfg self n h]

/-- The loop of line 34 on the largest 64-bit size under the scenario
constants: 52 halvings, from `2 ^ 58 - 1` blocks down to 63. -/
theorem Resize.coarsen_scenario_max :
    Resize.coarsen scenarioConfig.MAX_RANGE_COUNT
      (max (((WORD - 1) >>> scenarioConfig.MIN_RANGE_SHIFT) % WORD) 1)
      scenarioConfig.MIN_RANGE_SHIFT = (63, 58) := by
  simp [Resize.coarsen, WORD, scenarioConfig]

/-- Lines 32-36 on the largest 64-bit size under the scenario constants. -/
theorem Resize.config_scenario_max : Resize.config scenarioConfig (WORD - 1) = (64, 58) := by
  rw [Resize.config_of_coarsen scenarioConfig (WORD - 1) 63 58 Resize.coarsen_scenario_max]
  simp [WORD]

/-- Two levels packed into one byte as on lines 61-63 can be read back. -/
theorem ExportStatistics.nibbles (x y : Nat) (hx : x ≤ 15) (hy : y ≤ 15) :
    (x ||| (y <<< 4)) % 256 < 256 ∧ ((x ||| (y <<< 4)) % 256) &&& 0xF = x ∧
      ((x ||| (y <<< 4)) % 256) >>> 4 = y := by
  interval_cases x <;> interval_cases y <;> decide

/-- Record `i` of the export is the packing of block `i`. -/
theorem ExportStatistics.contents_record (self : FileStatisticsCollector) (i : Nat)
    (b : BlockStatistics) (hi : i < self.block_count_) (hb : self.block_stats_[i]? = some b) :
    (ExportStatistics.contents self).block_stats[i]? = some (ExportStatistics.record b) := by
  simp [ExportStatistics.contents, List.getElem?_range hi, List.getD_eq_getElem?_getD, hb]

/-- With a successful allocation `ExportStatistics` returns the filled buffer. -/
theorem ExportStatistics_returns (AllocateBuffer : Allocator) (self : FileStatisticsCollector)
    (halloc : AllocateBuffer (ExportStatistics.size self) = .ok ()) :
    self.ExportStatistics AllocateBuffer = .returned (.ok (some
      { size := ExportStatistics.size self, contents := ExportStatistics.contents self })) := by
  unfold FileStatisticsCollector.ExportStatistics
  rw [halloc]

/-! ## The claims -/

/-- Claim C1, which the code does not meet: the assertion of line 37 can
fail.  For every choice of constants with `MIN_RANGE_SHIFT ≥ 1`,
`Resize(2 ^ 64 - 1)` reaches line 37 with `(block_count << block_shift) < n` in 64-bit arithmetic:
the shifted count is even and at most `2 ^ 64 - 2`.  The assertion fails, and
a build with assertions aborts. -/
theorem Resize_assertion_fails_at_max (cfg : Config) (self : FileStatisticsCollector)
    (hm : 1 ≤ cfg.MIN_RANGE_SHIFT) :
    ((Resize cfg self (WORD - 1)).block_count_ <<< (Resize cfg self (WORD - 1)).block_shift_)
        % WORD < WORD - 1 ∧
      Resize.assertion cfg (WORD - 1) = false ∧
      Resize.checked cfg self (WORD - 1) = none := by
  have hs : 1 ≤ (Resize.config cfg (WORD - 1)).2 :=
    le_trans hm (Resize.config_shift_ge cfg (WORD - 1))
  have hW : WORD = 2 ^ 64 := rfl
  have hlt : ((Resize.config cfg (WORD - 1)).1 <<< (Resize.config cfg (WORD - 1)).2) % WORD
      < WORD - 1 := by
    generalize (Resize.config cfg (WORD - 1)).1 = c at *
    generalize (Resize.config cfg (WORD - 1)).2 = s at *
    obtain ⟨t, rfl⟩ : ∃ t, s = t + 1 := ⟨s - 1, by omega⟩
    rw [Nat.shiftLeft_eq, pow_succ, ← mul_assoc, hW]
    have hmod : (c * 2 ^ t * 2) % 2 ^ 64 % 2 = 0 := by
      rw [Nat.mod_mod_of_dvd _ (by norm_num : 2 ∣ 2 ^ 64)]
      exact Nat.mul_mod_left _ _
    have hb : (c * 2 ^ t * 2) % 2 ^ 64 < 2 ^ 64 := Nat.mod_lt _ (by norm_num)
    omega
  have ha : Resize.assertion cfg (WORD - 1) = false := by
    unfold Resize.assertion
    exact decide_eq_false (by omega)
  refine ⟨by rw [Resize_block_count, Resize_block_shift]; exact hlt, ha, ?_⟩
  unfold Resize.checked
  rw [ha]
  rfl

/-- Witness for C1: under the scenario constants (`MIN_RANGE_SHIFT = 6`,
`MAX_RANGE_COUNT = 64`) `Resize(18446744073709551615)` computes 64 blocks of
`2 ^ 58` bytes, `64 << 58` wraps to 0, and the assertion fails. -/
theorem Resize_assertion_fails_at_max_scenario :
    WORD - 1 = 18446744073709551615 ∧
      Resize.config scenarioConfig 18446744073709551615 = (64, 58) ∧
      (64 <<< 58) % WORD = 0 ∧
      Resize.assertion scenarioConfig 18446744073709551615 = false ∧
      Resize.checked scenarioConfig emptyCollector 18446744073709551615 = none :=
  ⟨by norm_num [WORD], Resize.config_scenario_max, by simp [WORD],
    (Resize_assertion_fails_at_max scenarioConfig emptyCollector (by decide)).2.1,
    (Resize_assertion_fails_at_max scenarioConfig emptyCollector (by decide)).2.2⟩

/-- Claim C2, which the code does not meet: the budget is exceeded by one.
For every choice of constants with `MIN_RANGE_SHIFT ≥ 1` and `MAX_RANGE_COUNT ≥ 1`, a
file one byte longer than `MAX_RANGE_COUNT` blocks of the smallest size (a
64-bit size) leaves the loop of line 34 with exactly `MAX_RANGE_COUNT` blocks,
and line 36 adds one: `Resize` stores `MAX_RANGE_COUNT + 1` blocks. -/
theorem Resize_exceeds_MAX_RANGE_COUNT (cfg : Config) (self : FileStatisticsCollector)
    (hm : 1 ≤ cfg.MIN_RANGE_SHIFT) (hM : 1 ≤ cfg.MAX_RANGE_COUNT)
    (hn : cfg.MAX_RANGE_COUNT * 2 ^ cfg.MIN_RANGE_SHIFT + 1 < WORD) :
    (Resize cfg self (cfg.MAX_RANGE_COUNT * 2 ^ cfg.MIN_RANGE_SHIFT + 1)).block_count_
      = cfg.MAX_RANGE_COUNT + 1 := by
  obtain ⟨m, M⟩ := cfg
  simp only at hm hM hn ⊢
  have h2 : 1 < 2 ^ m := Nat.one_lt_two_pow (by omega)
  have hdiv : (M * 2 ^ m + 1) >>> m = M := by
    rw [Nat.shiftRight_eq_div_pow]
    apply Nat.div_eq_of_lt_le
    · omega
    · rw [Nat.add_mul, one_mul]
      omega
  have hle : M ≤ M * 2 ^ m := Nat.le_mul_of_pos_right _ (by positivity)
  have hco : Resize.coarsen M (max (((M * 2 ^ m + 1) >>> m) % WORD) 1) m = (M, m) := by
    rw [hdiv, Nat.mod_eq_of_lt (by omega), max_eq_left hM, Resize.coarsen,
      if_neg (lt_irrefl M)]
  rw [Resize_block_count, Resize.config_of_coarsen ⟨m, M⟩ _ M m hco]
  simp only
  rw [Nat.shiftLeft_eq, Nat.mod_eq_of_lt (by omega), if_pos (by omega),
    Nat.mod_eq_of_lt (by omega)]

/-- Witness for C2: under the scenario constants `Resize(4097)` stores 65
blocks, one more than `MAX_RANGE_COUNT = 64`. -/
theorem Resize_exceeds_MAX_RANGE_COUNT_scenario :
    scenarioConfig.MAX_RANGE_COUNT * 2 ^ scenarioConfig.MIN_RANGE_SHIFT + 1 = 4097 ∧
      (Resize scenarioConfig emptyCollector 4097).block_count_ = 65 ∧
      ¬ (Resize scenarioConfig emptyCollector 4097).block_count_
        ≤ scenarioConfig.MAX_RANGE_COUNT := by
  have h := Resize_exceeds_MAX_RANGE_COUNT scenarioConfig emptyCollector (by decide)
    (by decide) (by norm_num [scenarioConfig, WORD])
  have h' : (Resize scenarioConfig emptyCollector 4097).block_count_ = 65 := h
  refine ⟨by decide, h', ?_⟩
  rw [h']
  decide

/-- Claim C3: `as_nibble` equals its reference definition; for every count
`hits` the result is the largest level `L` in `[0, 15]` with `hits ≥ 2 ^ L - 1`; in
particular `as_nibble 0 = 0`, `as_nibble 1 = 1`, `as_nibble 3 = 2`,
`as_nibble 7 = 3`, and the result is 15 for every `hits ≥ 32767`. -/
theorem as_nibble_reference (hits : Nat) :
    IsGreatest {L : Nat | L ≤ 15 ∧ 2 ^ L - 1 ≤ hits} (as_nibble hits) ∧
      as_nibble 0 = 0 ∧ as_nibble 1 = 1 ∧ as_nibble 3 = 2 ∧ as_nibble 7 = 3 ∧
      (32767 ≤ hits → as_nibble hits = 15) := by
  obtain ⟨h15, hge, hlt⟩ := as_nibble_bounds hits
  refine ⟨⟨⟨h15, hge⟩, ?_⟩, ?_, ?_, ?_, ?_, ?_⟩
  · rintro L ⟨hL15, hL⟩
    rcases hlt with h | h
    · omega
    · have hp : 0 < 2 ^ L := by positivity
      have hlt2 : 2 ^ L < 2 ^ (as_nibble hits + 1) := by omega
      have := (Nat.pow_lt_pow_iff_right (by norm_num : 1 < 2)).1 hlt2
      omega
  · simp [as_nibble, as_nibble.loop]
  · simp [as_nibble, as_nibble.loop]
  · simp [as_nibble, as_nibble.loop]
  · simp [as_nibble, as_nibble.loop]
  · intro hbig
    by_contra hne
    have h : hits < 2 ^ (as_nibble hits + 1) - 1 := hlt.resolve_left hne
    have hle : 2 ^ (as_nibble hits + 1) ≤ 2 ^ 15 :=
      Nat.pow_le_pow_right (by norm_num) (by omega)
    norm_num at hle
    omega


/-- Claim C4, block record packing: whenever the allocation succeeds,
`ExportStatistics` returns a buffer in which, for every block index
`i < block_count_` with block `b` at `block_stats_[i]`, record `i` has
`byte0 & 0xF = as_nibble(file_write)`, `byte0 >> 4 = as_nibble(file_read_cold)`,
`byte1 & 0xF = as_nibble(file_read_ahead)`,
`byte1 >> 4 = as_nibble(file_read_cached)`,
`byte2 & 0xF = as_nibble(page_access)` and `byte2 >> 4 = as_nibble(page_load)`,
each byte being below 256. -/
theorem ExportStatistics_record_packing (AllocateBuffer : Allocator)
    (self : FileStatisticsCollector) (i : Nat) (b : BlockStatistics)
    (halloc : AllocateBuffer (ExportStatistics.size self) = .ok ())
    (hi : i < self.block_count_) (hb : self.block_stats_[i]? = some b) :
    ∃ buf o, self.ExportStatistics AllocateBuffer = .returned (.ok (some buf)) ∧
      buf.contents.block_stats[i]? = some o ∧
      o.byte0 < 256 ∧ o.byte1 < 256 ∧ o.byte2 < 256 ∧
      o.byte0 &&& 0xF = as_nibble b.file_write ∧
      o.byte0 >>> 4 = as_nibble b.file_read_cold ∧
      o.byte1 &&& 0xF = as_nibble b.file_read_ahead ∧
      o.byte1 >>> 4 = as_nibble b.file_read_cached ∧
      o.byte2 &&& 0xF = as_nibble b.page_access ∧
      o.byte2 >>> 4 = as_nibble b.page_load := by
  have h0 := ExportStatistics.nibbles (as_nibble b.file_write) (as_nibble b.file_read_cold)
    (as_nibble_bounds _).1 (as_nibble_bounds _).1
  have h1 := ExportStatistics.nibbles (as_nibble b.file_read_ahead)
    (as_nibble b.file_read_cached) (as_nibble_bounds _).1 (as_nibble_bounds _).1
  have h2 := ExportStatistics.nibbles (as_nibble b.page_access) (as_nibble b.page_load)
    (as_nibble_bounds _).1 (as_nibble_bounds _).1
  exact ⟨_, ExportStatistics.record b, ExportStatistics_returns AllocateBuffer self halloc,
    ExportStatistics.contents_record self i b hi hb,
    h0.1, h1.1, h2.1, h0.2.1, h0.2.2, h1.2.1, h1.2.2, h2.2.1, h2.2.2⟩

/-- Witness for C4: block 0 of the scenario collector (`file_write = 5`,
the other counters zero) under an allocator that succeeds. -/
theorem ExportStatistics_record_packing_scenario :
    ∃ buf o, scenarioCollector.ExportStatistics okAllocator = .returned (.ok (some buf)) ∧
      buf.contents.block_stats[0]? = some o ∧
      o.byte0 < 256 ∧ o.byte1 < 256 ∧ o.byte2 < 256 ∧
      o.byte0 &&& 0xF = as_nibble 5 ∧ o.byte0 >>> 4 = as_nibble 0 ∧
      o.byte1 &&& 0xF = as_nibble 0 ∧ o.byte1 >>> 4 = as_nibble 0 ∧
      o.byte2 &&& 0xF = as_nibble 0 ∧ o.byte2 >>> 4 = as_nibble 0 :=
  ExportStatistics_record_packing okAllocator scenarioCollector 0 ⟨5, 0, 0, 0, 0, 0⟩ rfl
    (by decide) rfl

/-- Claim C5, the exact block count chosen by `Resize`: for constants with
`MAX_RANGE_COUNT ≥ 1` (and `MIN_RANGE_SHIFT < 64`, so that the shifts of lines
32 and 36 are defined) and every 64-bit `n`, the stored `block_count_` is the
least `c ≥ 1` with `c * 2 ^ block_shift_ ≥ n`, that is
`max 1 ⌈n / 2 ^ block_shift_⌉`.  With `MIN_RANGE_SHIFT = 6` and
`MAX_RANGE_COUNT = 64`, `Resize(1000)` stores 16 blocks at shift 6, and
`Resize(0)` stores one block. -/
theorem Resize_block_count_exact (cfg : Config) (self : FileStatisticsCollector) (n : Nat)
    (hM : 1 ≤ cfg.MAX_RANGE_COUNT) (hm : cfg.MIN_RANGE_SHIFT < 64) (hn : n < WORD) :
    IsLeast {c : Nat | 1 ≤ c ∧ n ≤ c * 2 ^ (Resize cfg self n).block_shift_}
        (Resize cfg self n).block_count_ ∧
      (Resize cfg self n).block_count_
        = max 1 ⌈(n : ℚ) / 2 ^ (Resize cfg self n).block_shift_⌉₊ ∧
      (Resize scenarioConfig self 1000).block_count_ = 16 ∧
      (Resize scenarioConfig self 1000).block_shift_ = 6 ∧
      (Resize cfg self 0).block_count_ = 1 := by
  have h1000 : Resize.config scenarioConfig 1000 = (16, 6) := by
    simp [Resize.config, Resize.coarsen, WORD, scenarioConfig]
  have h0 := Resize.config_spec cfg 0 hM hm (by norm_num [WORD])
  obtain ⟨hms, hs64, hc1, hcov, hmin⟩ := Resize.config_spec cfg n hM hm hn
  simp only [Resize_block_count, Resize_block_shift, h1000]
  generalize (Resize.config cfg n).1 = c at *
  generalize (Resize.config cfg n).2 = s at *
  have hp : (0 : ℚ) < 2 ^ s := by positivity
  refine ⟨⟨⟨hc1, hcov⟩, ?_⟩, ?_, trivial, trivial, ?_⟩
  · rintro d ⟨hd1, hd⟩
    rcases hmin with h | h
    · omega
    · have : (c - 1) * 2 ^ s < d * 2 ^ s := lt_of_lt_of_le h hd
      have := Nat.lt_of_mul_lt_mul_right this
      omega
  · have hceil : ⌈(n : ℚ) / 2 ^ s⌉₊ ≤ c := by
      rw [Nat.ceil_le, div_le_iff₀ hp]
      exact_mod_cast hcov
    rcases hmin with h | h
    · subst h
      exact (max_eq_left hceil).symm
    · have hlt : c - 1 < ⌈(n : ℚ) / 2 ^ s⌉₊ := by
        rw [Nat.lt_ceil, lt_div_iff₀ hp]
        exact_mod_cast h
      have heq : ⌈(n : ℚ) / 2 ^ s⌉₊ = c := by omega
      rw [heq]
      exact (max_eq_right hc1).symm
  · rcases h0.2.2.2.2 with h | h
    · exact h
    · omega

/-- Witness for C5: the scenario constants and `n = 1000` from an empty
collector. -/
theorem Resize_block_count_exact_scenario :
    IsLeast
        {c : Nat | 1 ≤ c ∧
          1000 ≤ c * 2 ^ (Resize scenarioConfig emptyCollector 1000).block_shift_}
        (Resize scenarioConfig emptyCollector 1000).block_count_ ∧
      (Resize scenarioConfig emptyCollector 1000).block_count_
        = max 1 ⌈((1000 : Nat) : ℚ) /
            2 ^ (Resize scenarioConfig emptyCollector 1000).block_shift_⌉₊ ∧
      (Resize scenarioConfig emptyCollector 1000).block_count_ = 16 ∧
      (Resize scenarioConfig emptyCollector 1000).block_shift_ = 6 ∧
      (Resize scenarioConfig emptyCollector 0).block_count_ = 1 :=
  Resize_block_count_exact scenarioConfig emptyCollector 1000 (by decide) (by decide)
    (by norm_num [WORD])

/-- Counterexample to C6 as stated.  The scenario collector
has `file_write = 5` in block 0 and every other counter of block 0 zero; its
export returns a buffer whose record 0 has byte 0 with low nibble 2, not 3,
because `as_nibble 5 = 2` (5 reaches the threshold 3 of level 2 and not the
threshold 7 of level 3). -/
theorem ExportStatistics_scenario_low_nibble_ne_three :
    scenarioCollector.block_stats_[0]? = some ⟨5, 0, 0, 0, 0, 0⟩ ∧
      ∃ buf o, scenarioCollector.ExportStatistics okAllocator = .returned (.ok (some buf)) ∧
        buf.contents.block_stats[0]? = some o ∧
        o.byte0 &&& 0xF = 2 ∧ o.byte0 &&& 0xF ≠ 3 ∧ as_nibble 5 ≠ 3 := by
  have h5 : as_nibble 5 = 2 := by simp [as_nibble, as_nibble.loop]
  have h0 : as_nibble 0 = 0 := by simp [as_nibble, as_nibble.loop]
  refine ⟨rfl, _, ExportStatistics.record ⟨5, 0, 0, 0, 0, 0⟩,
    ExportStatistics_returns okAllocator scenarioCollector rfl,
    ExportStatistics.contents_record scenarioCollector 0 _ (by decide) rfl, ?_, ?_, ?_⟩
  · simp only [ExportStatistics.record, h5, h0]
    decide
  · simp only [ExportStatistics.record, h5, h0]
    decide
  · rw [h5]
    decide

/-- Claim C6 with the level the code computes.  For every collector whose
block 0 has `file_write = 5` and whose allocation succeeds, `ExportStatistics`
returns a buffer whose record 0 has byte 0 with low nibble 2, which is
`as_nibble 5`. -/
theorem ExportStatistics_file_write_five (AllocateBuffer : Allocator)
    (self : FileStatisticsCollector) (b : BlockStatistics)
    (halloc : AllocateBuffer (ExportStatistics.size self) = .ok ())
    (hcount : 0 < self.block_count_) (hb : self.block_stats_[0]? = some b)
    (hw : b.file_write = 5) :
    ∃ buf o, self.ExportStatistics AllocateBuffer = .returned (.ok (some buf)) ∧
      buf.contents.block_stats[0]? = some o ∧
      o.byte0 &&& 0xF = 2 ∧ as_nibble 5 = 2 := by
  have h5 : as_nibble 5 = 2 := by simp [as_nibble, as_nibble.loop]
  have h := ExportStatistics.nibbles (as_nibble b.file_write) (as_nibble b.file_read_cold)
    (as_nibble_bounds _).1 (as_nibble_bounds _).1
  refine ⟨_, ExportStatistics.record b, ExportStatistics_returns AllocateBuffer self halloc,
    ExportStatistics.contents_record self 0 b hcount hb, ?_, h5⟩
  rw [← h5, ← hw]
  exact h.2.1

/-- Witness for C6 with the level the code computes: the scenario collector under an allocator
that succeeds. -/
theorem ExportStatistics_file_write_five_scenario :
    ∃ buf o, scenarioCollector.ExportStatistics okAllocator = .returned (.ok (some buf)) ∧
      buf.contents.block_stats[0]? = some o ∧
      o.byte0 &&& 0xF = 2 ∧ as_nibble 5 = 2 :=
  ExportStatistics_file_write_five okAllocator scenarioCollector ⟨5, 0, 0, 0, 0, 0⟩ rfl
    (by decide) rfl rfl

/-- Claim C7: `Resize` is idempotent; for every state `self` and every `n`,
`Resize(n)` applied to the state produced by `Resize(n)` leaves that state
unchanged (configuration and block array alike), also in a build that checks
the assertion; and `Resize(n)` on any state whose
`(block_count_, block_shift_)` already is the configuration computed for `n`
returns that state, every per-block counter preserved. -/
theorem Resize_idempotent (cfg : Config) (self : FileStatisticsCollector) (n : Nat) :
    Resize cfg (Resize cfg self n) n = Resize cfg self n ∧
      (∀ s, Resize.checked cfg self n = some s → Resize.checked cfg s n = some s) ∧
      (∀ s : FileStatisticsCollector,
        (s.block_count_, s.block_shift_) = Resize.config cfg n →
          Resize cfg s n = s ∧ (Resize cfg s n).block_stats_ = s.block_stats_) := by
  have hidem : Resize cfg (Resize cfg self n) n = Resize cfg self n :=
    Resize_same cfg _ n ⟨(Resize_block_count cfg self n).symm,
      (Resize_block_shift cfg self n).symm⟩
  refine ⟨hidem, ?_, ?_⟩
  · intro s hs
    unfold Resize.checked at hs ⊢
    by_cases ha : Resize.assertion cfg n = true
    · rw [if_pos ha] at hs ⊢
      obtain rfl := Option.some.inj hs
      rw [hidem]
    · rw [if_neg ha] at hs
      exact absurd hs (by simp)
  · intro s hs
    have h1 : (Resize.config cfg n).1 = s.block_count_ := by rw [← hs]
    have h2 : (Resize.config cfg n).2 = s.block_shift_ := by rw [← hs]
    have := Resize_same cfg s n ⟨h1, h2⟩
    exact ⟨this, by rw [this]⟩

/-- Counterexample to C8 as stated.  The scenario collector was resized to 1000 (16
blocks at shift 6, its own block array of 16 entries) and then counted 5
writes in block 0.  `Resize(1001)`, a different size, computes the same
configuration and returns at line 38: block 0 still has `file_write = 5`. -/
theorem Resize_other_size_keeps_counters :
    Resize scenarioConfig emptyCollector 1000 =
        { scenarioCollector with block_stats_ := List.replicate 16 BlockStatistics.zero } ∧
      (scenarioCollector.block_count_, scenarioCollector.block_shift_)
        = Resize.config scenarioConfig 1000 ∧
      scenarioCollector.block_stats_.length = scenarioCollector.block_count_ ∧
      (1001 : Nat) ≠ 1000 ∧
      (Resize scenarioConfig scenarioCollector 1001).block_stats_[0]?
        = some ⟨5, 0, 0, 0, 0, 0⟩ ∧
      ¬ ∀ b ∈ (Resize scenarioConfig scenarioCollector 1001).block_stats_,
          b.file_write = 0 ∧ b.file_read_cold = 0 ∧ b.file_read_ahead = 0 ∧
            b.file_read_cached = 0 ∧ b.page_access = 0 ∧ b.page_load = 0 := by
  have h1000 : Resize.config scenarioConfig 1000 = (16, 6) := by
    simp [Resize.config, Resize.coarsen, WORD, scenarioConfig]
  have h1001 : Resize.config scenarioConfig 1001 = (16, 6) := by
    simp [Resize.config, Resize.coarsen, WORD, scenarioConfig]
  have hsame : Resize scenarioConfig scenarioCollector 1001 = scenarioCollector :=
    Resize_same _ _ _ (by rw [h1001]; exact ⟨rfl, rfl⟩)
  refine ⟨?_, ?_, rfl, by decide, ?_, ?_⟩
  · rw [Resize_fresh _ _ _ (by rw [h1000]; decide), h1000]
    rfl
  · rw [h1000]
    rfl
  · rw [hsame]
    rfl
  · rw [hsame]
    intro h
    have := (h ⟨5, 0, 0, 0, 0, 0⟩ (by simp [scenarioCollector])).1
    exact absurd this (by decide)

/-- Claim C8 with the guard of line 38.  For every collector state and every `n` whose computed
configuration `(block_count, block_shift)` differs from the one the collector
has, after `Resize(n)` the block array is `block_count` zeroed blocks: every
per-block counter of every block is zero. -/
theorem Resize_new_configuration_zeroes (cfg : Config) (self : FileStatisticsCollector)
    (n : Nat) (h : Resize.config cfg n ≠ (self.block_count_, self.block_shift_)) :
    (Resize cfg self n).block_stats_
        = List.replicate (Resize cfg self n).block_count_ BlockStatistics.zero ∧
      ∀ b ∈ (Resize cfg self n).block_stats_,
        b.file_write = 0 ∧ b.file_read_cold = 0 ∧ b.file_read_ahead = 0 ∧
          b.file_read_cached = 0 ∧ b.page_access = 0 ∧ b.page_load = 0 := by
  have hne : ¬ ((Resize.config cfg n).1 = self.block_count_ ∧
      (Resize.config cfg n).2 = self.block_shift_) := by
    rintro ⟨h1, h2⟩
    exact h (Prod.ext h1 h2)
  have hst : (Resize cfg self n).block_stats_
      = List.replicate (Resize cfg self n).block_count_ BlockStatistics.zero := by
    rw [Resize_block_count, Resize_fresh cfg self n hne]
  refine ⟨hst, ?_⟩
  intro b hb
  rw [hst] at hb
  obtain rfl := List.eq_of_mem_replicate hb
  exact ⟨rfl, rfl, rfl, rfl, rfl, rfl⟩

/-- Witness for C8 with the guard of line 38: the scenario collector resized to 5000
bytes gets 40 zeroed blocks of 128 bytes. -/
theorem Resize_new_configuration_zeroes_scenario :
    Resize.config scenarioConfig 5000 = (40, 7) ∧
      (Resize scenarioConfig scenarioCollector 5000).block_stats_
        = List.replicate (Resize scenarioConfig scenarioCollector 5000).block_count_
          BlockStatistics.zero ∧
      ∀ b ∈ (Resize scenarioConfig scenarioCollector 5000).block_stats_,
        b.file_write = 0 ∧ b.file_read_cold = 0 ∧ b.file_read_ahead = 0 ∧
          b.file_read_cached = 0 ∧ b.page_access = 0 ∧ b.page_load = 0 := by
  have h5000 : Resize.config scenarioConfig 5000 = (40, 7) := by
    simp [Resize.config, Resize.coarsen, WORD, scenarioConfig]
  exact ⟨h5000, Resize_new_configuration_zeroes scenarioConfig scenarioCollector 5000
    (by rw [h5000]; decide)⟩

/-- Claim C9, the frame condition of `Resize`: for every state and every `n`,
`Resize(n)` leaves the six whole-file aggregates and the active flag
unchanged, whether or not it replaces the block array. -/
theorem Resize_frame (cfg : Config) (self : FileStatisticsCollector) (n : Nat) :
    (Resize cfg self n).bytes_file_read_cold_ = self.bytes_file_read_cold_ ∧
      (Resize cfg self n).bytes_file_read_ahead_ = self.bytes_file_read_ahead_ ∧
      (Resize cfg self n).bytes_file_read_cached_ = self.bytes_file_read_cached_ ∧
      (Resize cfg self n).bytes_file_write_ = self.bytes_file_write_ ∧
      (Resize cfg self n).bytes_page_access_ = self.bytes_page_access_ ∧
      (Resize cfg self n).bytes_page_load_ = self.bytes_page_load_ ∧
      (Resize cfg self n).active_ = self.active_ := by
  by_cases h : (Resize.config cfg n).1 = self.block_count_ ∧
      (Resize.config cfg n).2 = self.block_shift_
  · rw [Resize_same cfg self n h]
    exact ⟨rfl, rfl, rfl, rfl, rfl, rfl, rfl⟩
  · rw [Resize_fresh cfg self n h]
    exact ⟨rfl, rfl, rfl, rfl, rfl, rfl, rfl⟩

/-- Claim C10, which the code does not meet: the failure is not returned.  Whenever the
allocator fails for the requested size, `ExportStatistics` does not return at
all: `ValueOrDie()` on line 49 aborts, so no result, neither the failure
status nor a buffer, reaches the caller; the registry's `ExportStatistics`
for a tracked name ends the same way. -/
theorem ExportStatistics_aborts_on_allocation_failure (AllocateBuffer : Allocator)
    (self : FileStatisticsCollector) (status : Status)
    (halloc : AllocateBuffer (ExportStatistics.size self) = .error status) :
    self.ExportStatistics AllocateBuffer = .aborted ∧
      self.ExportStatistics AllocateBuffer ≠ .returned (.error status) ∧
      ∀ (registry : FileStatisticsRegistry) (path : String) (p : Nat),
        registry.find path = some p → registry.objects p = self →
          registry.ExportStatistics AllocateBuffer path = .aborted := by
  have h : self.ExportStatistics AllocateBuffer = .aborted := by
    unfold FileStatisticsCollector.ExportStatistics
    rw [halloc]
  refine ⟨h, ?_, ?_⟩
  · rw [h]
    exact fun hc => Outcome.noConfusion hc
  · intro registry path p hfind hobj
    unfold FileStatisticsRegistry.ExportStatistics
    rw [hfind]
    simp only [hobj, h]

/-- Witness for C10: the scenario collector, alone and through a registry
that tracks it, under an allocator that is out of memory. -/
theorem ExportStatistics_aborts_on_allocation_failure_scenario :
    failingAllocator (ExportStatistics.size scenarioCollector) = .error ⟨1⟩ ∧
      scenarioCollector.ExportStatistics failingAllocator = .aborted ∧
      scenarioRegistry.TracksFile "data.parquet" = true ∧
      scenarioRegistry.ExportStatistics failingAllocator "data.parquet" = .aborted :=
  ⟨rfl, (ExportStatistics_aborts_on_allocation_failure failingAllocator scenarioCollector
      ⟨1⟩ rfl).1, by decide,
    (ExportStatistics_aborts_on_allocation_failure failingAllocator scenarioCollector
      ⟨1⟩ rfl).2.2 scenarioRegistry "data.parquet" 0 (by decide) rfl⟩

/-! ## Further facts on the collector -/

/-- The `block_size` that line 57 writes is a 32-bit value. -/
theorem ExportStatistics.block_size_lt (self : FileStatisticsCollector) :
    (ExportStatistics.contents self).block_size < 2 ^ 32 :=
  Nat.mod_lt _ (by norm_num)

/-- The loop of line 34 on `2 ^ 38` bytes under the scenario constants: 26
halvings, from `2 ^ 32` blocks down to 64. -/
theorem Resize.coarsen_scenario_large :
    Resize.coarsen scenarioConfig.MAX_RANGE_COUNT
      (max ((274877906944 >>> scenarioConfig.MIN_RANGE_SHIFT) % WORD) 1)
      scenarioConfig.MIN_RANGE_SHIFT = (64, 32) := by
  simp [Resize.coarsen, WORD, scenarioConfig]

/-- Lines 32-36 on `2 ^ 38` bytes under the scenario constants. -/
theorem Resize.config_scenario_large :
    Resize.config scenarioConfig 274877906944 = (64, 32) := by
  rw [Resize.config_of_coarsen scenarioConfig 274877906944 64 32 Resize.coarsen_scenario_large]
  simp [WORD]

/-- The invariant "the block array has `block_count_` entries" survives one
`Resize`. -/
theorem Resize_length (cfg : Config) (self : FileStatisticsCollector) (n : Nat)
    (hinv : self.block_stats_.length = self.block_count_) :
    (Resize cfg self n).block_stats_.length = (Resize cfg self n).block_count_ := by
  by_cases h : (Resize.config cfg n).1 = self.block_count_ ∧
      (Resize.config cfg n).2 = self.block_shift_
  · rw [Resize_same cfg self n h]
    exact hinv
  · rw [Resize_fresh cfg self n h]
    exact List.length_replicate _ _

/-- The invariant survives every sequence of `Resize` calls. -/
theorem Resize.all_length (cfg : Config) (sizes : List Nat) (self : FileStatisticsCollector)
    (hinv : self.block_stats_.length = self.block_count_) :
    (Resize.all cfg self sizes).block_stats_.length
      = (Resize.all cfg self sizes).block_count_ := by
  induction sizes generalizing self with
  | nil => exact hinv
  | cons n rest ih => exact ih (Resize cfg self n) (Resize_length cfg self n hinv)

/-! ## Facts on the registry -/

/-- A pointer found under a name is an entry of `collectors_`. -/
theorem FileStatisticsRegistry.mem_of_find (r : FileStatisticsRegistry) (name : String)
    (p : Nat) (h : r.find name = some p) : (name, p) ∈ r.collectors_ := by
  unfold FileStatisticsRegistry.find at h
  obtain ⟨l₁, l₂, hl, -⟩ := List.lookup_eq_some_iff.1 h
  rw [hl]
  simp

/-- A name that is not found is no key of `collectors_`. -/
theorem FileStatisticsRegistry.not_key_of_find (r : FileStatisticsRegistry) (name : String)
    (h : r.find name = none) : name ∉ r.collectors_.map Prod.fst := by
  unfold FileStatisticsRegistry.find at h
  rw [List.lookup_eq_none_iff] at h
  intro hmem
  obtain ⟨e, he, hname⟩ := List.mem_map.1 hmem
  have := h e he
  simp [hname] at this

/-- Every registered address is below the fresh one. -/
theorem FileStatisticsRegistry.lt_fresh (r : FileStatisticsRegistry) (q : Nat)
    (h : q ∈ r.collectors_.map Prod.snd) : q < r.fresh := by
  unfold FileStatisticsRegistry.fresh
  generalize r.collectors_.map Prod.snd = l at h
  induction l with
  | nil => simp at h
  | cons x xs ih =>
    rw [List.foldr_cons]
    rcases List.mem_cons.1 h with rfl | hq
    · have := le_max_left q (List.foldr max 0 xs)
      omega
    · have := ih hq
      have := le_max_right x (List.foldr max 0 xs)
      omega

/-- Lines 87-89: the name is registered. -/
theorem FileStatisticsRegistry.EnableCollector_found (init : FileStatisticsCollector)
    (r : FileStatisticsRegistry) (name : String) (enable : Bool) (p : Nat)
    (h : r.find name = some p) :
    r.EnableCollector init name enable
      = (some p,
          { r with objects := Function.update r.objects p ((r.objects p).Activate enable) }) := by
  unfold FileStatisticsRegistry.EnableCollector
  rw [h]

/-- Lines 90-93: the name is not registered and `enable` is true. -/
theorem FileStatisticsRegistry.EnableCollector_created (init : FileStatisticsCollector)
    (r : FileStatisticsRegistry) (name : String) (h : r.find name = none) :
    r.EnableCollector init name true
      = (some r.fresh,
          { collectors_ := (name, r.fresh) :: r.collectors_
            objects := Function.update r.objects r.fresh init }) := by
  have hins : FileStatisticsRegistry.insert r.collectors_ name r.fresh
      = (name, r.fresh) :: r.collectors_ := by
    unfold FileStatisticsRegistry.insert
    unfold FileStatisticsRegistry.find at h
    rw [h]
    rfl
  unfold FileStatisticsRegistry.EnableCollector
  rw [h]
  simp only [if_true, hins]

/-- Line 95: the name is not registered and `enable` is false. -/
theorem FileStatisticsRegistry.EnableCollector_absent (init : FileStatisticsCollector)
    (r : FileStatisticsRegistry) (name : String) (h : r.find name = none) :
    r.EnableCollector init name false = (none, r) := by
  unfold FileStatisticsRegistry.EnableCollector
  rw [h]
  rfl

/-- The lookup of a name in the registry that line 92 leaves. -/
theorem FileStatisticsRegistry.find_created (r : FileStatisticsRegistry)
    (objects : Nat → FileStatisticsCollector) (name other : String) (p : Nat) :
    FileStatisticsRegistry.find { collectors_ := (name, p) :: r.collectors_, objects := objects }
        other
      = if other = name then some p else r.find other := by
  unfold FileStatisticsRegistry.find
  simp only [List.lookup_cons]
  by_cases h : other = name
  · simp [h]
  · have : (other == name) = false := by simpa using h
    simp [this, h]

/-- `EnableCollector` never removes or replaces an entry. -/
theorem FileStatisticsRegistry.find_EnableCollector (init : FileStatisticsCollector)
    (r : FileStatisticsRegistry) (name other : String) (enable : Bool) (q : Nat)
    (h : r.find other = some q) :
    (r.EnableCollector init name enable).2.find other = some q := by
  cases hf : r.find name with
  | some p =>
    rw [FileStatisticsRegistry.EnableCollector_found init r name enable p hf]
    exact h
  | none =>
    cases enable with
    | false =>
      rw [FileStatisticsRegistry.EnableCollector_absent init r name hf]
      exact h
    | true =>
      rw [FileStatisticsRegistry.EnableCollector_created init r name hf]
      simp only
      rw [FileStatisticsRegistry.find_created]
      have hne : other ≠ name := by
        rintro rfl
        rw [hf] at h
        exact absurd h (by simp)
      rw [if_neg hne]
      exact h

/-- No call removes or replaces an entry. -/
theorem FileStatisticsRegistry.find_after (init : FileStatisticsCollector)
    (r : FileStatisticsRegistry) (call : FileStatisticsRegistry.Call) (other : String) (q : Nat)
    (h : r.find other = some q) : (r.after init call).find other = some q := by
  cases call with
  | TracksFile _ => exact h
  | FindCollector _ => exact h
  | EnableCollector name enable =>
    exact FileStatisticsRegistry.find_EnableCollector init r name other enable q h
  | ExportStatistics _ => exact h

/-- No sequence of calls removes or replaces an entry. -/
theorem FileStatisticsRegistry.find_afterAll (init : FileStatisticsCollector)
    (calls : List FileStatisticsRegistry.Call) (r : FileStatisticsRegistry) (other : String)
    (q : Nat) (h : r.find other = some q) : (r.afterAll init calls).find other = some q := by
  induction calls generalizing r with
  | nil => exact h
  | cons call rest ih =>
    exact ih (r.after init call) (FileStatisticsRegistry.find_after init r call other q h)

/-- The registry's constructor leaves a well-formed registry. -/
theorem emptyRegistry_WellFormed : emptyRegistry.WellFormed :=
  ⟨List.nodup_nil, List.nodup_nil⟩

/-- `EnableCollector` keeps the registry well-formed. -/
theorem FileStatisticsRegistry.WellFormed_EnableCollector (init : FileStatisticsCollector)
    (r : FileStatisticsRegistry) (name : String) (enable : Bool) (h : r.WellFormed) :
    (r.EnableCollector init name enable).2.WellFormed := by
  cases hf : r.find name with
  | some p =>
    rw [FileStatisticsRegistry.EnableCollector_found init r name enable p hf]
    exact h
  | none =>
    cases enable with
    | false =>
      rw [FileStatisticsRegistry.EnableCollector_absent init r name hf]
      exact h
    | true =>
      rw [FileStatisticsRegistry.EnableCollector_created init r name hf]
      unfold FileStatisticsRegistry.WellFormed
      simp only [List.map_cons, List.nodup_cons]
      refine ⟨⟨FileStatisticsRegistry.not_key_of_find r name hf, h.1⟩, ⟨?_, h.2⟩⟩
      intro hmem
      exact absurd (FileStatisticsRegistry.lt_fresh r r.fresh hmem) (lt_irrefl _)

/-- Every call keeps the registry well-formed. -/
theorem FileStatisticsRegistry.WellFormed_after (init : FileStatisticsCollector)
    (r : FileStatisticsRegistry) (call : FileStatisticsRegistry.Call) (h : r.WellFormed) :
    (r.after init call).WellFormed := by
  cases call with
  | TracksFile _ => exact h
  | FindCollector _ => exact h
  | EnableCollector name enable =>
    exact FileStatisticsRegistry.WellFormed_EnableCollector init r name enable h
  | ExportStatistics _ => exact h

/-- Every sequence of calls keeps the registry well-formed; in particular
every registry reached from the empty one is well-formed. -/
theorem FileStatisticsRegistry.WellFormed_afterAll (init : FileStatisticsCollector)
    (calls : List FileStatisticsRegistry.Call) (r : FileStatisticsRegistry) (h : r.WellFormed) :
    (r.afterAll init calls).WellFormed := by
  induction calls generalizing r with
  | nil => exact h
  | cons call rest ih =>
    exact ih (r.after init call) (FileStatisticsRegistry.WellFormed_after init r call h)

/-- In a well-formed registry two different names have different collectors. -/
theorem FileStatisticsRegistry.WellFormed.ne_of_ne (r : FileStatisticsRegistry)
    (h : r.WellFormed) (a b : String) (p q : Nat) (hab : a ≠ b)
    (ha : r.find a = some p) (hb : r.find b = some q) : p ≠ q := by
  intro hpq
  have hma := FileStatisticsRegistry.mem_of_find r a p ha
  have hmb := FileStatisticsRegistry.mem_of_find r b q hb
  have := List.inj_on_of_nodup_map h.2 hma hmb hpq
  exact hab (Prod.ext_iff.1 this).1

/-! ## The claims, continued -/

/-- Claim C11: `EnableCollector` does not duplicate.  In every well-formed
registry two successive calls `EnableCollector(name, true)` return the same
collector instance, the second call adds no entry, and the registry holds
exactly one entry for `name` afterwards. -/
theorem EnableCollector_twice_same_instance (init : FileStatisticsCollector)
    (r : FileStatisticsRegistry) (name : String) (hwf : r.WellFormed) :
    ∃ p, (r.EnableCollector init name true).1 = some p ∧
      ((r.EnableCollector init name true).2.EnableCollector init name true).1 = some p ∧
      ((r.EnableCollector init name true).2.EnableCollector init name true).2.collectors_
        = (r.EnableCollector init name true).2.collectors_ ∧
      ((r.EnableCollector init name true).2.EnableCollector init name true).2.entries name
        = 1 := by
  have hwf1 := FileStatisticsRegistry.WellFormed_EnableCollector init r name true hwf
  have hfirst : ∃ p, (r.EnableCollector init name true).1 = some p ∧
      (r.EnableCollector init name true).2.find name = some p := by
    cases hf : r.find name with
    | some p =>
      refine ⟨p, ?_, ?_⟩
      · rw [FileStatisticsRegistry.EnableCollector_found init r name true p hf]
      · exact FileStatisticsRegistry.find_EnableCollector init r name name true p hf
    | none =>
      refine ⟨r.fresh, ?_, ?_⟩
      · rw [FileStatisticsRegistry.EnableCollector_created init r name hf]
      · rw [FileStatisticsRegistry.EnableCollector_created init r name hf]
        simp only
        rw [FileStatisticsRegistry.find_created, if_pos rfl]
  obtain ⟨p, h1, h2⟩ := hfirst
  generalize r.EnableCollector init name true = first at *
  have hsecond := FileStatisticsRegistry.EnableCollector_found init first.2 name true p h2
  refine ⟨p, h1, ?_, ?_, ?_⟩
  · rw [hsecond]
  · rw [hsecond]
  · rw [hsecond]
    unfold FileStatisticsRegistry.entries
    simp only
    apply List.count_eq_one_of_mem hwf1.1
    exact List.mem_map.2 ⟨(name, p), FileStatisticsRegistry.mem_of_find first.2 name p h2, rfl⟩

/-- Witness for C11: a new name enabled twice in the empty registry. -/
theorem EnableCollector_twice_same_instance_scenario :
    ∃ p, (emptyRegistry.EnableCollector emptyCollector "a.csv" true).1 = some p ∧
      ((emptyRegistry.EnableCollector emptyCollector "a.csv" true).2.EnableCollector
        emptyCollector "a.csv" true).1 = some p ∧
      ((emptyRegistry.EnableCollector emptyCollector "a.csv" true).2.EnableCollector
        emptyCollector "a.csv" true).2.collectors_
        = (emptyRegistry.EnableCollector emptyCollector "a.csv" true).2.collectors_ ∧
      ((emptyRegistry.EnableCollector emptyCollector "a.csv" true).2.EnableCollector
        emptyCollector "a.csv" true).2.entries "a.csv" = 1 :=
  EnableCollector_twice_same_instance emptyCollector emptyRegistry "a.csv"
    emptyRegistry_WellFormed

/-- Claim C12: disabling an untracked file is a no-op.  When `name` has no
collector, `EnableCollector(name, false)` returns `nullptr` and the registry
it leaves is the one it found, so `TracksFile(name)` is still false and
`FindCollector(name)` still `nullptr`. -/
theorem EnableCollector_disable_untracked (init : FileStatisticsCollector)
    (r : FileStatisticsRegistry) (name : String) (h : r.FindCollector name = none) :
    (r.EnableCollector init name false).1 = none ∧
      (r.EnableCollector init name false).2 = r ∧
      (r.EnableCollector init name false).2.TracksFile name = false ∧
      (r.EnableCollector init name false).2.FindCollector name = none := by
  have hf : r.find name = none := h
  rw [FileStatisticsRegistry.EnableCollector_absent init r name hf]
  refine ⟨rfl, rfl, ?_, h⟩
  unfold FileStatisticsRegistry.TracksFile
  rw [hf]
  rfl

/-- Witness for C12: a name the scenario registry does not track. -/
theorem EnableCollector_disable_untracked_scenario :
    (scenarioRegistry.EnableCollector emptyCollector "other.csv" false).1 = none ∧
      (scenarioRegistry.EnableCollector emptyCollector "other.csv" false).2 = scenarioRegistry ∧
      (scenarioRegistry.EnableCollector emptyCollector "other.csv" false).2.TracksFile
        "other.csv" = false ∧
      (scenarioRegistry.EnableCollector emptyCollector "other.csv" false).2.FindCollector
        "other.csv" = none :=
  EnableCollector_disable_untracked emptyCollector scenarioRegistry "other.csv" (by decide)

/-- Claim C13: enabling or disabling an existing collector.  When `name` has
the collector at `p`, `EnableCollector(name, enable)` returns `p`, the
collector's active flag becomes `enable`, the entries of the registry are
the same, so `p` stays registered under `name` and `TracksFile(name)` is true
also for `enable = false`, and the collector's block array, configuration and
aggregates are unchanged. -/
theorem EnableCollector_existing (init : FileStatisticsCollector)
    (r : FileStatisticsRegistry) (name : String) (enable : Bool) (p : Nat)
    (h : r.FindCollector name = some p) :
    (r.EnableCollector init name enable).1 = some p ∧
      ((r.EnableCollector init name enable).2.objects p).active_ = enable ∧
      (r.EnableCollector init name enable).2.collectors_ = r.collectors_ ∧
      (r.EnableCollector init name enable).2.FindCollector name = some p ∧
      (r.EnableCollector init name enable).2.TracksFile name = true ∧
      (r.EnableCollector init name enable).2.objects p
        = { r.objects p with active_ := enable } ∧
      ((r.EnableCollector init name enable).2.objects p).block_stats_
        = (r.objects p).block_stats_ ∧
      ((r.EnableCollector init name enable).2.objects p).block_count_
        = (r.objects p).block_count_ ∧
      ((r.EnableCollector init name enable).2.objects p).block_shift_
        = (r.objects p).block_shift_ := by
  have hf : r.find name = some p := h
  rw [FileStatisticsRegistry.EnableCollector_found init r name enable p hf]
  have hupd : Function.update r.objects p ((r.objects p).Activate enable) p
      = (r.objects p).Activate enable := Function.update_same _ _ _
  refine ⟨rfl, ?_, rfl, h, ?_, ?_, ?_, ?_, ?_⟩
  · show (Function.update r.objects p ((r.objects p).Activate enable) p).active_ = enable
    rw [hupd]
    rfl
  · unfold FileStatisticsRegistry.TracksFile FileStatisticsRegistry.find
    unfold FileStatisticsRegistry.find at hf
    simp only [hf]
    rfl
  · show Function.update r.objects p ((r.objects p).Activate enable) p = _
    rw [hupd]
    rfl
  · show (Function.update r.objects p ((r.objects p).Activate enable) p).block_stats_ = _
    rw [hupd]
    rfl
  · show (Function.update r.objects p ((r.objects p).Activate enable) p).block_count_ = _
    rw [hupd]
    rfl
  · show (Function.update r.objects p ((r.objects p).Activate enable) p).block_shift_ = _
    rw [hupd]
    rfl

/-- Witness for C13: the scenario registry's file disabled. -/
theorem EnableCollector_existing_scenario :
    (scenarioRegistry.EnableCollector emptyCollector "data.parquet" false).1 = some 0 ∧
      ((scenarioRegistry.EnableCollector emptyCollector "data.parquet" false).2.objects
        0).active_ = false ∧
      (scenarioRegistry.EnableCollector emptyCollector "data.parquet" false).2.TracksFile
        "data.parquet" = true ∧
      ((scenarioRegistry.EnableCollector emptyCollector "data.parquet" false).2.objects
        0).block_count_ = 16 := by
  have h := EnableCollector_existing emptyCollector scenarioRegistry "data.parquet" false 0
    (by decide)
  exact ⟨h.1, h.2.1, h.2.2.2.2.1, h.2.2.2.2.2.2.2.1⟩

/-- Claim C14: the registry's export.  For a name with no collector
`ExportStatistics(name)` returns the OK result holding `nullptr`, not an
error; for a name with a collector it ends exactly as that collector's
`ExportStatistics`; and the call leaves the registry as it found it. -/
theorem ExportStatistics_registry (init : FileStatisticsCollector)
    (AllocateBuffer : Allocator) (r : FileStatisticsRegistry) (name : String) :
    (r.FindCollector name = none →
        r.ExportStatistics AllocateBuffer name = .returned (.ok none) ∧
          ∀ status, r.ExportStatistics AllocateBuffer name ≠ .returned (.error status)) ∧
      (∀ p, r.FindCollector name = some p →
        r.ExportStatistics AllocateBuffer name
          = (r.objects p).ExportStatistics AllocateBuffer) ∧
      r.after init (.ExportStatistics name) = r := by
  refine ⟨?_, ?_, rfl⟩
  · intro h
    have hf : r.find name = none := h
    have hret : r.ExportStatistics AllocateBuffer name = .returned (.ok none) := by
      unfold FileStatisticsRegistry.ExportStatistics
      rw [hf]
    refine ⟨hret, ?_⟩
    intro status hc
    rw [hret] at hc
    cases hc
  · intro p h
    have hf : r.find name = some p := h
    unfold FileStatisticsRegistry.ExportStatistics
    rw [hf]


/-- Claim C15, the export buffer size: when the allocation succeeds and the
requested size fits `size_t`, `ExportStatistics` returns a buffer of exactly
`52 + 3 * block_count_` bytes, holding one record per block after the header. -/
theorem ExportStatistics_buffer_size (AllocateBuffer : Allocator)
    (self : FileStatisticsCollector)
    (halloc : AllocateBuffer (ExportStatistics.size self) = .ok ())
    (hfit : sizeof_ExportFileStatistics + self.block_count_ * sizeof_ExportedBlockStats < WORD) :
    ∃ buf, self.ExportStatistics AllocateBuffer = .returned (.ok (some buf)) ∧
      buf.size = 52 + 3 * self.block_count_ ∧
      buf.contents.block_stats.length = self.block_count_ := by
  refine ⟨_, ExportStatistics_returns AllocateBuffer self halloc, ?_, ?_⟩
  · show ExportStatistics.size self = _
    unfold ExportStatistics.size
    rw [Nat.mod_eq_of_lt hfit]
    simp only [sizeof_ExportFileStatistics, sizeof_ExportedBlockStats]
    omega
  · simp [ExportStatistics.contents]

/-- Witness for C15: the scenario collector (16 blocks) exports 100 bytes. -/
theorem ExportStatistics_buffer_size_scenario :
    ∃ buf, scenarioCollector.ExportStatistics okAllocator = .returned (.ok (some buf)) ∧
      buf.size = 52 + 3 * 16 ∧ buf.contents.block_stats.length = 16 :=
  ExportStatistics_buffer_size okAllocator scenarioCollector rfl (by decide)

/-- Claim C16, the block array length invariant: from a state whose block
array has `block_count_` entries, `Resize` either returns the state untouched
or installs an array of the new `block_count_` zeroed blocks; the invariant
holds after it and after every sequence of `Resize` calls, and there every
index `i < block_count_` that `ExportStatistics` reads is inside the array. -/
theorem Resize_preserves_block_array_length (cfg : Config) (self : FileStatisticsCollector)
    (n : Nat) (hinv : self.block_stats_.length = self.block_count_) :
    (Resize cfg self n).block_stats_.length = (Resize cfg self n).block_count_ ∧
      (Resize cfg self n = self ∨
        (Resize cfg self n).block_stats_
          = List.replicate (Resize cfg self n).block_count_ BlockStatistics.zero) ∧
      (((Resize cfg self n).block_count_ ≠ self.block_count_ ∨
          (Resize cfg self n).block_shift_ ≠ self.block_shift_) →
        (Resize cfg self n).block_stats_
          = List.replicate (Resize cfg self n).block_count_ BlockStatistics.zero) ∧
      ∀ sizes : List Nat,
        (Resize.all cfg self sizes).block_stats_.length
            = (Resize.all cfg self sizes).block_count_ ∧
          ∀ i, i < (Resize.all cfg self sizes).block_count_ →
            ∃ b, (Resize.all cfg self sizes).block_stats_[i]? = some b := by
  have hcases : Resize cfg self n = self ∨
      (Resize cfg self n).block_stats_
        = List.replicate (Resize cfg self n).block_count_ BlockStatistics.zero := by
    by_cases h : (Resize.config cfg n).1 = self.block_count_ ∧
        (Resize.config cfg n).2 = self.block_shift_
    · exact Or.inl (Resize_same cfg self n h)
    · right
      rw [Resize_block_count, Resize_fresh cfg self n h]
  refine ⟨Resize_length cfg self n hinv, hcases, ?_, ?_⟩
  · intro hchange
    rcases hcases with h | h
    · rw [h] at hchange
      rcases hchange with hc | hc <;> exact absurd rfl hc
    · exact h
  · intro sizes
    have hlen := Resize.all_length cfg sizes self hinv
    refine ⟨hlen, ?_⟩
    intro i hi
    rw [← hlen] at hi
    exact ⟨_, List.getElem?_eq_getElem hi⟩

/-- Witness for C16: the empty collector resized to 1000 and then to 5000
bytes under the scenario constants. -/
theorem Resize_preserves_block_array_length_scenario :
    (Resize scenarioConfig emptyCollector 1000).block_stats_.length
        = (Resize scenarioConfig emptyCollector 1000).block_count_ ∧
      (Resize.all scenarioConfig emptyCollector [1000, 5000]).block_stats_.length
        = (Resize.all scenarioConfig emptyCollector [1000, 5000]).block_count_ :=
  ⟨(Resize_preserves_block_array_length scenarioConfig emptyCollector 1000 rfl).1,
    ((Resize_preserves_block_array_length scenarioConfig emptyCollector 1000 rfl).2.2.2
      [1000, 5000]).1⟩

/-- Claim C17, which the code does not meet: `block_size` need not be
`2 ^ block_shift_`.  Under the scenario constants `Resize(2 ^ 38)` stores 64
blocks at shift 32 (and `64 << 32` covers the file), and `ExportStatistics`
then writes `1 << 32` computed on the 32-bit `int` 1: the exported
`block_size` is a 32-bit value (0 in the model) and so differs from the block
size `2 ^ 32` that `Resize` used.  The same holds for every collector with
`block_shift_ ≥ 32`; below 32 the exported value is `2 ^ block_shift_`. -/
theorem ExportStatistics_block_size_wraps :
    Resize scenarioConfig emptyCollector 274877906944 = largeCollector ∧
      (64 <<< 32) % WORD ≥ 274877906944 ∧
      (∃ buf, largeCollector.ExportStatistics okAllocator = .returned (.ok (some buf)) ∧
        buf.contents.block_size = 0 ∧
        buf.contents.block_size ≠ 2 ^ largeCollector.block_shift_) ∧
      (∀ self : FileStatisticsCollector, 32 ≤ self.block_shift_ →
        (ExportStatistics.contents self).block_size ≠ 2 ^ self.block_shift_) ∧
      (∀ self : FileStatisticsCollector, self.block_shift_ < 32 →
        (ExportStatistics.contents self).block_size = 2 ^ self.block_shift_) := by
  refine ⟨?_, by simp [WORD],
    ⟨_, ExportStatistics_returns okAllocator largeCollector rfl, ?_, ?_⟩, ?_, ?_⟩
  · rw [Resize_fresh _ _ _ (by rw [Resize.config_scenario_large]; decide),
      Resize.config_scenario_large]
    rfl
  · simp [ExportStatistics.contents, largeCollector]
  · simp [ExportStatistics.contents, largeCollector]
  · intro self hs
    have hlt := ExportStatistics.block_size_lt self
    have hge : 2 ^ 32 ≤ 2 ^ self.block_shift_ := Nat.pow_le_pow_right (by norm_num) hs
    omega
  · intro self hs
    show (1 <<< self.block_shift_) % 2 ^ 32 = 2 ^ self.block_shift_
    rw [Nat.shiftLeft_eq, one_mul]
    exact Nat.mod_eq_of_lt (Nat.pow_lt_pow_right (by norm_num) hs)

/-- Claim C18: `Resize` picks the finest admissible resolution.  With
`MAX_RANGE_COUNT ≥ 1` and a 64-bit `n`, the loop of line 34 ends after some
number `k` of halvings, the stored `block_shift_` is the least
`s ≥ MIN_RANGE_SHIFT` with
`(max (n >> MIN_RANGE_SHIFT) 1) >> (s - MIN_RANGE_SHIFT) ≤ MAX_RANGE_COUNT`,
and it is `MIN_RANGE_SHIFT` whenever `(n >> MIN_RANGE_SHIFT) ≤ MAX_RANGE_COUNT`. -/
theorem Resize_finest_resolution (cfg : Config) (self : FileStatisticsCollector) (n : Nat)
    (hM : 1 ≤ cfg.MAX_RANGE_COUNT) (hn : n < WORD) :
    (∃ k, Resize.coarsen cfg.MAX_RANGE_COUNT (max (n >>> cfg.MIN_RANGE_SHIFT) 1)
        cfg.MIN_RANGE_SHIFT
          = (max (n >>> cfg.MIN_RANGE_SHIFT) 1 >>> k, cfg.MIN_RANGE_SHIFT + k) ∧
        (Resize cfg self n).block_shift_ = cfg.MIN_RANGE_SHIFT + k) ∧
      IsLeast {s : Nat | cfg.MIN_RANGE_SHIFT ≤ s ∧
          max (n >>> cfg.MIN_RANGE_SHIFT) 1 >>> (s - cfg.MIN_RANGE_SHIFT)
            ≤ cfg.MAX_RANGE_COUNT}
        (Resize cfg self n).block_shift_ ∧
      (n >>> cfg.MIN_RANGE_SHIFT ≤ cfg.MAX_RANGE_COUNT →
        (Resize cfg self n).block_shift_ = cfg.MIN_RANGE_SHIFT) := by
  have hsh : (n >>> cfg.MIN_RANGE_SHIFT) % WORD = n >>> cfg.MIN_RANGE_SHIFT := by
    apply Nat.mod_eq_of_lt
    rw [Nat.shiftRight_eq_div_pow]
    exact lt_of_le_of_lt (Nat.div_le_self _ _) hn
  obtain ⟨k, hk, hle, hlt⟩ := Resize.coarsen_eq cfg.MAX_RANGE_COUNT
    (max (n >>> cfg.MIN_RANGE_SHIFT) 1) cfg.MIN_RANGE_SHIFT
  have hcfg : (Resize.config cfg n).2 = cfg.MIN_RANGE_SHIFT + k := by
    have hk2 : Resize.coarsen cfg.MAX_RANGE_COUNT
        (max ((n >>> cfg.MIN_RANGE_SHIFT) % WORD) 1) cfg.MIN_RANGE_SHIFT
          = (max (n >>> cfg.MIN_RANGE_SHIFT) 1 >>> k, cfg.MIN_RANGE_SHIFT + k) := by
      rw [hsh]
      exact hk
    rw [Resize.config_of_coarsen cfg n (max (n >>> cfg.MIN_RANGE_SHIFT) 1 >>> k)
      (cfg.MIN_RANGE_SHIFT + k) hk2]
  rw [Resize_block_shift, hcfg]
  refine ⟨⟨k, hk, rfl⟩, ⟨⟨Nat.le_add_right _ _, ?_⟩, ?_⟩, ?_⟩
  · rw [Nat.add_sub_cancel_left]
    exact hle
  · rintro s ⟨hms, hs⟩
    by_contra hcon
    have := hlt (s - cfg.MIN_RANGE_SHIFT) (by omega)
    omega
  · intro hsmall
    have hk0 : k = 0 := by
      by_contra hne
      have h0 := hlt 0 (by omega)
      rw [Nat.shiftRight_zero] at h0
      have : max (n >>> cfg.MIN_RANGE_SHIFT) 1 ≤ cfg.MAX_RANGE_COUNT := max_le hsmall hM
      omega
    rw [hk0, Nat.add_zero]

/-- Witness for C18: 5000 bytes under the scenario constants; 78 blocks of 64
bytes are too many, 39 of 128 bytes are not, so the shift is 7. -/
theorem Resize_finest_resolution_scenario :
    IsLeast {s : Nat | 6 ≤ s ∧ max (5000 >>> 6) 1 >>> (s - 6) ≤ 64}
        (Resize scenarioConfig emptyCollector 5000).block_shift_ ∧
      (Resize scenarioConfig emptyCollector 5000).block_shift_ = 7 := by
  have h := Resize_finest_resolution scenarioConfig emptyCollector 5000 (by decide)
    (by norm_num [WORD])
  have h5000 : Resize.config scenarioConfig 5000 = (40, 7) := by
    simp [Resize.config, Resize.coarsen, WORD, scenarioConfig]
  refine ⟨h.2.1, ?_⟩
  rw [Resize_block_shift, h5000]

/-- Claim C19: `as_nibble` is monotone and bounded; for all counts `a ≤ b`,
`as_nibble a ≤ as_nibble b ≤ 15`. -/
theorem as_nibble_monotone (a b : Nat) (h : a ≤ b) :
    as_nibble a ≤ as_nibble b ∧ as_nibble b ≤ 15 := by
  obtain ⟨ha15, hage, -⟩ := as_nibble_bounds a
  obtain ⟨hb15, -, hblt⟩ := as_nibble_bounds b
  refine ⟨?_, hb15⟩
  rcases hblt with hb | hb
  · omega
  · have hp : 0 < 2 ^ as_nibble a := by positivity
    have hlt2 : 2 ^ as_nibble a < 2 ^ (as_nibble b + 1) := by omega
    have := (Nat.pow_lt_pow_iff_right (by norm_num : 1 < 2)).1 hlt2
    omega

/-- Witness for C19: 5 hits against 100 hits, levels 2 and 6. -/
theorem as_nibble_monotone_scenario :
    as_nibble 5 = 2 ∧ as_nibble 100 = 6 ∧
      as_nibble 5 ≤ as_nibble 100 ∧ as_nibble 100 ≤ 15 :=
  ⟨by simp [as_nibble, as_nibble.loop], by simp [as_nibble, as_nibble.loop],
    (as_nibble_monotone 5 100 (by decide)).1, (as_nibble_monotone 5 100 (by decide)).2⟩

/-- Claim C20: registry operations are local to their key and never remove
entries.  In every well-formed registry and for names `a ≠ b`,
`EnableCollector(a, e)` leaves the lookup of `b` as it was (the same instance
or still none) and the collector of `b`, its active flag included, unchanged;
and after any call, and any sequence of calls, of `TracksFile`,
`FindCollector`, `EnableCollector` and `ExportStatistics`, a name that
`FindCollector` found still has the same instance. -/
theorem EnableCollector_local (init : FileStatisticsCollector) (r : FileStatisticsRegistry)
    (a b : String) (e : Bool) (hwf : r.WellFormed) (hab : a ≠ b) :
    (r.EnableCollector init a e).2.FindCollector b = r.FindCollector b ∧
      (∀ q, r.FindCollector b = some q →
        (r.EnableCollector init a e).2.objects q = r.objects q ∧
          ((r.EnableCollector init a e).2.objects q).active_ = (r.objects q).active_) ∧
      (∀ (call : FileStatisticsRegistry.Call) (name : String) (p : Nat),
        r.FindCollector name = some p → (r.after init call).FindCollector name = some p) ∧
      (∀ (calls : List FileStatisticsRegistry.Call) (name : String) (p : Nat),
        r.FindCollector name = some p →
          (r.afterAll init calls).FindCollector name = some p) := by
  have hobj : ∀ q, r.FindCollector b = some q →
      (r.EnableCollector init a e).2.objects q = r.objects q := by
    intro q hq
    have hqf : r.find b = some q := hq
    cases hf : r.find a with
    | some p =>
      rw [FileStatisticsRegistry.EnableCollector_found init r a e p hf]
      have hne : q ≠ p :=
        (FileStatisticsRegistry.WellFormed.ne_of_ne r hwf a b p q hab hf hqf).symm
      exact Function.update_noteq hne _ _
    | none =>
      cases e with
      | false => rw [FileStatisticsRegistry.EnableCollector_absent init r a hf]
      | true =>
        rw [FileStatisticsRegistry.EnableCollector_created init r a hf]
        have hmem : q ∈ r.collectors_.map Prod.snd :=
          List.mem_map.2 ⟨(b, q), FileStatisticsRegistry.mem_of_find r b q hqf, rfl⟩
        have hne : q ≠ r.fresh := ne_of_lt (FileStatisticsRegistry.lt_fresh r q hmem)
        exact Function.update_noteq hne _ _
  refine ⟨?_, fun q hq => ⟨hobj q hq, by rw [hobj q hq]⟩, ?_, ?_⟩
  · show (r.EnableCollector init a e).2.find b = r.find b
    cases hf : r.find a with
    | some p => rw [FileStatisticsRegistry.EnableCollector_found init r a e p hf]; rfl
    | none =>
      cases e with
      | false => rw [FileStatisticsRegistry.EnableCollector_absent init r a hf]
      | true =>
        rw [FileStatisticsRegistry.EnableCollector_created init r a hf]
        simp only
        rw [FileStatisticsRegistry.find_created, if_neg (Ne.symm hab)]
  · intro call name p h
    exact FileStatisticsRegistry.find_after init r call name p h
  · intro calls name p h
    exact FileStatisticsRegistry.find_afterAll init calls r name p h

/-- Witness for C20: in a registry tracking `a.csv` and `b.csv`, enabling
`a.csv` leaves the entry and the collector of `b.csv` as they were. -/
theorem EnableCollector_local_scenario :
    twoFileRegistry.FindCollector "b.csv" = some 2 ∧
      (twoFileRegistry.EnableCollector emptyCollector "a.csv" true).2.FindCollector "b.csv"
        = some 2 ∧
      (twoFileRegistry.EnableCollector emptyCollector "a.csv" true).2.objects 2
        = twoFileRegistry.objects 2 := by
  have h := EnableCollector_local emptyCollector twoFileRegistry "a.csv" "b.csv" true
    (by simp [FileStatisticsRegistry.WellFormed, twoFileRegistry]) (by decide)
  have hb : twoFileRegistry.FindCollector "b.csv" = some 2 := by decide
  exact ⟨hb, h.1.trans hb, (h.2.1 2 hb).1⟩

end duckdb.web.io
